import Mathlib

/-!
Verification development for the gobase data-access layer.

Shallow embedding of the Go sources: the reflection-based shape check
(`ValidateBaseModel`), the generic CRUD accessor over a GORM/SQLite-style
store (`Create`/`Get`/`All`/`Filter`/`Update`/`Delete`/`Migrate`/
`Transaction`), the JSON preload pipeline (`preloadObject`,
`recordExists`, `preloadObjects`, `preloadFromFile`), and the user
subsystem (`User.BeforeCreate` hook, `validateSuperuserInputs`,
`CreateSuperuser`).

Modelling conventions:
- Machine state is explicit: a store is a list of rows plus the next
  auto-increment id (SQLite rowids start at 1).
- GORM soft delete: every read (`First`/`Find`) filters `deleted_at IS
  NULL`; `Delete` marks rows; `Save` updates all fields of the live row
  with the model's primary key; a zero primary key counts as unset.
- SQLite comparison affinity: binding a TEXT value against the INTEGER
  `id` column compares numerically when the text is a plain decimal
  numeral and never matches otherwise; modelled by `String.toNat?`.
- Go `len` on strings counts bytes, modelled by `String.utf8ByteSize`;
  `strings.TrimSpace s == ""` is modelled by `s.data.all Char.isWhitespace`.
- bcrypt hashing is an external collaborator; it is modelled by an
  opaque-looking but deterministic tag function (only non-emptiness and
  the flow around it matter to the claims).
-/

deriving instance DecidableEq for Except

namespace Gobase

/-! ## Reflection model (what `reflect` exposes to `ValidateBaseModel`) -/

/-- A struct field as seen by reflection: its name, whether it is an
embedded (anonymous) field, and the name of its type (`field.Type.Name()`;
empty for pointer types). -/
structure RField where
  fname : String
  anonymous : Bool
  typeName : String
deriving DecidableEq, Repr

/-- A runtime type as seen by reflection: a pointer, a struct with its
field list, or any non-struct kind. -/
inductive RType where
  | ptr (elem : RType)
  | structTy (name : String) (fields : List RField)
  | basic (name : String)
deriving DecidableEq, Repr

/-- `reflect.Type.Name()`: a pointer type has the empty name. -/
def RType.typeName : RType → String
  | .ptr _ => ""
  | .structTy n _ => n
  | .basic n => n

/-- One level of pointer dereference, as `ValidateBaseModel` performs. -/
def derefOnce : RType → RType
  | .ptr e => e
  | t => t

/-- `ValidateBaseModel` from the model introspection code: a nil model is
rejected, a pointer is dereferenced once, non-structs are rejected, and
the struct must contain an anonymous field whose type is named
`BaseModel`. `none` models a nil `interface{}` argument. -/
def ValidateBaseModel (model : Option RType) : Except String Unit :=
  match model with
  | none => .error "model cannot be nil"
  | some t =>
    match derefOnce t with
    | .structTy _ fields =>
      if fields.any (fun f => f.anonymous && f.typeName == "BaseModel") then .ok ()
      else .error "model must embed gobase.BaseModel"
    | _ => .error "model must be a struct"

/-- Reflected type of `&TestModel{}` (a struct embedding `BaseModel`). -/
def testModelTy : Option RType :=
  some (.ptr (.structTy "TestModel"
    [⟨"BaseModel", true, "BaseModel"⟩, ⟨"Name", false, "string"⟩]))

/-- Reflected type of a struct that defines the four base attributes
directly instead of embedding `BaseModel` (the shape of the example
`Product` model). -/
def directFieldsTy : Option RType :=
  some (.ptr (.structTy "Product"
    [⟨"ID", false, "uint"⟩, ⟨"CreatedAt", false, "Time"⟩,
     ⟨"UpdatedAt", false, "Time"⟩, ⟨"DeletedAt", false, "DeletedAt"⟩]))

/-- Reflected type of `&User{}` (the built-in user model). -/
def userModelTy : Option RType :=
  some (.ptr (.structTy "User"
    [⟨"BaseModel", true, "BaseModel"⟩, ⟨"Username", false, "string"⟩,
     ⟨"Email", false, "string"⟩, ⟨"PasswordHash", false, "string"⟩,
     ⟨"Role", false, "string"⟩]))

/-! ## Character classes and the two regexes of the user subsystem -/

def isAsciiLetter (c : Char) : Bool := ('a' ≤ c && c ≤ 'z') || ('A' ≤ c && c ≤ 'Z')

def isAsciiDigit (c : Char) : Bool := '0' ≤ c && c ≤ '9'

/-- Character class of the username regex `[a-zA-Z0-9_]`. -/
def isUsernameChar (c : Char) : Bool := isAsciiLetter c || isAsciiDigit c || c == '_'

/-- Anchored match of `^[a-zA-Z0-9_]+$`. -/
def usernameRegexMatch (s : String) : Bool :=
  !s.data.isEmpty && s.data.all isUsernameChar

/-- Character class of the email local part `[a-zA-Z0-9._%+-]`. -/
def isLocalChar (c : Char) : Bool :=
  isAsciiLetter c || isAsciiDigit c || c == '.' || c == '_' || c == '%' || c == '+' || c == '-'

/-- Character class of a domain segment `[a-zA-Z0-9-]` (dots are handled
as separators). -/
def isDomainChar (c : Char) : Bool := isAsciiLetter c || isAsciiDigit c || c == '-'

/-- Split a character list on a separator (used to model the anchored
email regex by decomposition; neither class contains `@`, so the regex
matches iff there is exactly one `@` and both sides match). -/
def splitOnSep (sep : Char) : List Char → List (List Char)
  | [] => [[]]
  | c :: rest =>
    let r := splitOnSep sep rest
    if c == sep then [] :: r
    else match r with
      | h :: t => (c :: h) :: t
      | [] => [[c]]

/-- Anchored match of `^[a-zA-Z0-9._%+-]+@[a-zA-Z0-9.-]+\.[a-zA-Z]{2,}$`.
The domain part `[a-zA-Z0-9.-]+\.[a-zA-Z]{2,}` matches iff splitting the
domain on dots yields at least two segments, the characters before the
last dot are in the domain class and non-empty, and the final segment is
two or more ASCII letters. -/
def emailRegexMatch (s : String) : Bool :=
  match splitOnSep '@' s.data with
  | [loc, domain] =>
    !loc.isEmpty && loc.all isLocalChar &&
    (let segs := splitOnSep '.' domain
     !segs.dropLast.isEmpty &&
     !(segs.dropLast.all List.isEmpty) &&
     segs.dropLast.all (fun seg => seg.all isDomainChar) &&
     (match segs.getLast? with
      | some tld => decide (2 ≤ tld.length) && tld.all isAsciiLetter
      | none => false))
  | _ => false

/-! ## validateSuperuserInputs (superuser.go) -/

def hasUpperCase (s : String) : Bool := s.data.any (fun c => 'A' ≤ c && c ≤ 'Z')

def hasLowerCase (s : String) : Bool := s.data.any (fun c => 'a' ≤ c && c ≤ 'z')

def hasDigit (s : String) : Bool := s.data.any (fun c => '0' ≤ c && c ≤ '9')

/-- The username block of `validateSuperuserInputs`, in source order. -/
def validateUsername (username : String) : Except String Unit :=
  if username.data.all Char.isWhitespace then .error "username cannot be empty"
  else if username.utf8ByteSize < 3 || username.utf8ByteSize > 150 then
    .error "username must be between 3 and 150 characters"
  else if !usernameRegexMatch username then
    .error "username can only contain letters, numbers, and underscores"
  else .ok ()

/-- The email block of `validateSuperuserInputs`, in source order. -/
def validateEmail (email : String) : Except String Unit :=
  if email.data.all Char.isWhitespace then .error "email cannot be empty"
  else if !emailRegexMatch email then .error "invalid email format"
  else .ok ()

/-- The password block of `validateSuperuserInputs`, in source order. -/
def validatePassword (password : String) : Except String Unit :=
  if password.utf8ByteSize < 8 then .error "password must be at least 8 characters long"
  else if !hasUpperCase password then .error "password must contain at least one uppercase letter"
  else if !hasLowerCase password then .error "password must contain at least one lowercase letter"
  else if !hasDigit password then .error "password must contain at least one digit"
  else .ok ()

/-- `validateSuperuserInputs`: username checks, then email checks, then
password checks; the first failing rule's message is returned. -/
def validateSuperuserInputs (username email password : String) : Except String Unit :=
  match validateUsername username with
  | .error e => .error e
  | .ok _ =>
    match validateEmail email with
    | .error e => .error e
    | .ok _ => validatePassword password

/-! ## User model (user model source: README.md appendix) -/

/-- SQLite affinity conversion of a TEXT bind compared against the
INTEGER `id` column: a plain decimal numeral compares as that integer,
anything else never equals an integer id. (Signs, blanks and decimal
points cannot occur in validated usernames, the only strings the code
ever binds against `id`.) -/
def decimalValue : String → Option Nat
  | s =>
    if !s.data.isEmpty && s.data.all isAsciiDigit then
      some (s.data.foldl (fun n c => n * 10 + (c.toNat - '0'.toNat)) 0)
    else none

/-- In-memory `User` value (fields of the Go struct that the verified
code paths read or write; timestamps are backend-maintained and omitted). -/
structure UserM where
  id : Nat := 0
  username : String := ""
  email : String := ""
  passwordHash : String := ""
  firstName : String := ""
  lastName : String := ""
  isActive : Bool := false
  isStaff : Bool := false
  isSuperuser : Bool := false
  role : String := ""
deriving DecidableEq, Repr

/-- A persisted row of the `users` table. -/
structure UserRow where
  rid : Nat
  username : String
  email : String
  passwordHash : String
  role : String
  isActive : Bool
  isStaff : Bool
  isSuperuser : Bool
  deleted : Bool
deriving DecidableEq, Repr

/-- The `users` table plus the next auto-increment id. -/
structure UserDb where
  rows : List UserRow
  nextId : Nat
deriving DecidableEq, Repr

/-- Stand-in for the external bcrypt collaborator: deterministic,
non-empty, prefixed like a bcrypt digest. Only its non-emptiness and the
control flow around it are relied upon. -/
def bcryptHash (password : String) : String := "$2a$10$" ++ password

/-- `User.SetPassword`: rejects passwords shorter than 8 bytes, else
stores the hash. -/
def SetPassword (u : UserM) (password : String) : Except String UserM :=
  if password.utf8ByteSize < 8 then .error "password must be at least 8 characters long"
  else .ok { u with passwordHash := bcryptHash password }

/-- `User.IsValidEmail`: the same anchored regex as the superuser email
validation. -/
def IsValidEmail (email : String) : Bool := emailRegexMatch email

/-- `User.IsValidUsername`: byte length in [3,150] and the username regex. -/
def IsValidUsername (username : String) : Bool :=
  if username.utf8ByteSize < 3 || username.utf8ByteSize > 150 then false
  else usernameRegexMatch username

/-- `User.BeforeCreate` GORM hook: required fields, format checks, role
defaulting, closed role set, and the role-implied flags. Returns the
mutated user on success. -/
def BeforeCreate (u : UserM) : Except String UserM :=
  if u.username == "" then .error "username is required"
  else if u.email == "" then .error "email is required"
  else if u.passwordHash == "" then .error "password is required"
  else if !IsValidEmail u.email then .error "invalid email format"
  else if !IsValidUsername u.username then
    .error "invalid username format (3-150 chars, alphanumeric and underscore only)"
  else
    let u1 := if u.role == "" then { u with role := "user" } else u
    if !(u1.role == "user" || u1.role == "admin" || u1.role == "superuser") then
      .error ("invalid role: " ++ u1.role ++ ". Valid roles: [user admin superuser]")
    else if u1.role == "superuser" then .ok { u1 with isSuperuser := true, isStaff := true }
    else if u1.role == "admin" then .ok { u1 with isStaff := true }
    else .ok u1

/-! ## Accessor operations on the users table -/

/-- `Accessor.Create` applied to a `*User`: shape validation, backend
dispatch, the `BeforeCreate` hook, then the INSERT with SQLite's primary
key and the two unique indexes (`username`, `email`). Unique indexes see
soft-deleted rows too. Returns the updated table. -/
def CreateUser (conn : String) (db : UserDb) (u : UserM) : Except String UserDb :=
  match ValidateBaseModel userModelTy with
  | .error e => .error ("model validation failed: " ++ e)
  | .ok _ =>
    if conn == "mongodb" then .error "MongoDB support not yet implemented for Create operation"
    else
      match BeforeCreate u with
      | .error e => .error e
      | .ok u1 =>
        let assigned := if u1.id == 0 then db.nextId else u1.id
        if db.rows.any (fun r => r.rid == assigned) then
          .error "UNIQUE constraint failed: users.id"
        else if db.rows.any (fun r => r.username == u1.username) then
          .error "UNIQUE constraint failed: users.username"
        else if db.rows.any (fun r => r.email == u1.email) then
          .error "UNIQUE constraint failed: users.email"
        else
          let newRow : UserRow :=
            { rid := assigned, username := u1.username, email := u1.email,
              passwordHash := u1.passwordHash, role := u1.role, isActive := u1.isActive,
              isStaff := u1.isStaff, isSuperuser := u1.isSuperuser, deleted := false }
          .ok { rows := db.rows ++ [newRow], nextId := max db.nextId (assigned + 1) }

/-- `Accessor.Get` applied to a `*User` with a string id value (the call
`accessor.Get(existingUser, username)` in `CreateSuperuser`): the query
is `WHERE id = ? AND deleted_at IS NULL`, so the bound string is compared
against the integer id column under SQLite affinity. -/
def GetUserByStringId (conn : String) (db : UserDb) (idVal : String) : Except String UserRow :=
  match ValidateBaseModel userModelTy with
  | .error e => .error ("model validation failed: " ++ e)
  | .ok _ =>
    if conn == "mongodb" then .error "MongoDB support not yet implemented for Get operation"
    else
      match db.rows.find? (fun r => decimalValue idVal == some r.rid && !r.deleted) with
      | some r => .ok r
      | none => .error "record not found"

/-- `Accessor.Filter` on the users table with the single condition
`{"email": email}`: live rows whose email equals the value. -/
def FilterUsersByEmail (conn : String) (db : UserDb) (email : String) :
    Except String (List UserRow) :=
  if conn == "mongodb" then .error "MongoDB support not yet implemented for Filter operation"
  else .ok (db.rows.filter (fun r => !r.deleted && r.email == email))

/-- `CreateSuperuser` (superuser.go): validation, the username existence
check through `Get`, the email uniqueness check through `Filter`,
password hashing, then `Create`. Error messages follow the source's
`fmt.Errorf` wrapping. -/
def CreateSuperuser (conn : String) (db : UserDb) (username email password : String) :
    Except String UserDb :=
  match validateSuperuserInputs username email password with
  | .error e => .error ("validation failed: " ++ e)
  | .ok _ =>
    match GetUserByStringId conn db username with
    | .ok _ => .error ("user with username '" ++ username ++ "' already exists")
    | .error _ =>
      match FilterUsersByEmail conn db email with
      | .error e => .error ("failed to check email uniqueness: " ++ e)
      | .ok found =>
        if found.length > 0 then .error ("user with email '" ++ email ++ "' already exists")
        else
          let superuser : UserM :=
            { username := username, email := email, role := "superuser",
              isActive := true, isStaff := true, isSuperuser := true }
          match SetPassword superuser password with
          | .error e => .error ("failed to set password: " ++ e)
          | .ok su =>
            match CreateUser conn db su with
            | .error e => .error ("failed to create superuser: " ++ e)
            | .ok db1 => .ok db1

/-! ## Generic accessor over a simple record type

The accessor is reflection-generic; the claims about it are proved over
a representative record shape (`TestModel`: the embedded base plus one
`Name` attribute, here `payload`). The reflected type of the target is
threaded explicitly, as `ValidateModel` receives it. -/

/-- An in-memory model instance: primary key (0 = unset) plus its data
attribute. -/
structure Model where
  id : Nat := 0
  payload : String := ""
deriving DecidableEq, Repr

/-- A persisted row of the model's table. -/
structure Row where
  rid : Nat
  payload : String
  deleted : Bool
deriving DecidableEq, Repr

/-- The model's table plus the next auto-increment id. -/
structure Db where
  rows : List Row
  nextId : Nat
deriving DecidableEq, Repr

/-- Rows visible to scoped queries (soft-deleted rows excluded). -/
def liveRows (db : Db) : List Row := db.rows.filter (fun r => !r.deleted)

/-- Number of live rows. -/
def liveCount (db : Db) : Nat := (liveRows db).length

/-- Number of rows with the given id when tombstoned rows are included
(`Unscoped` count). -/
def unscopedCountById (db : Db) (i : Nat) : Nat := db.rows.countP (fun r => r.rid == i)

/-- `Accessor.Create`: shape validation, backend dispatch, then INSERT.
A zero primary key is blank, so SQLite assigns the next id; an explicit
id collides with any existing row (live or tombstoned) holding it.
Returns the table and the model with its assigned id (GORM writes the id
back into the model). -/
def Create (conn : String) (ty : Option RType) (db : Db) (model : Model) :
    Except String (Db × Model) :=
  match ValidateBaseModel ty with
  | .error e => .error ("model validation failed: " ++ e)
  | .ok _ =>
    if conn == "mongodb" then .error "MongoDB support not yet implemented for Create operation"
    else
      let assigned := if model.id == 0 then db.nextId else model.id
      if db.rows.any (fun r => r.rid == assigned) then
        .error "UNIQUE constraint failed: test_models.id"
      else
        .ok ({ rows := db.rows ++ [⟨assigned, model.payload, false⟩],
               nextId := max db.nextId (assigned + 1) },
             { model with id := assigned })

/-- `Accessor.Get`: shape validation, the nil-id guard, backend dispatch,
then `First` on `id = ?` over live rows. Returns the error outcome paired
with the model after the call (populated on success, untouched otherwise). -/
def Get (conn : String) (ty : Option RType) (db : Db) (model : Model) (id : Option Nat) :
    Except String Unit × Model :=
  match ValidateBaseModel ty with
  | .error e => (.error ("model validation failed: " ++ e), model)
  | .ok _ =>
    match id with
    | none => (.error "id cannot be nil", model)
    | some i =>
      if conn == "mongodb" then
        (.error "MongoDB support not yet implemented for Get operation", model)
      else
        match db.rows.find? (fun r => r.rid == i && !r.deleted) with
        | some r => (.ok (), { id := r.rid, payload := r.payload })
        | none => (.error "record not found", model)

/-- Update of one field of a row by `Save`'s UPDATE (all fields are
written; only `payload` is mutable here, and the soft-delete scope keeps
tombstoned rows untouched). -/
def updRow (i : Nat) (p : String) (r : Row) : Row :=
  if r.rid == i && !r.deleted then { r with payload := p } else r

/-- The table after `Save` on a model with primary key `i`. -/
def updState (db : Db) (i : Nat) (p : String) : Db :=
  { db with rows := db.rows.map (updRow i p) }

/-- `Accessor.Update`: shape validation, backend dispatch, then `Save`.
`Save` with a blank primary key performs an insert; otherwise it issues
an UPDATE of all fields on the live row with that key (no error when
nothing matches). -/
def Update (conn : String) (ty : Option RType) (db : Db) (model : Model) :
    Except String Db :=
  match ValidateBaseModel ty with
  | .error e => .error ("model validation failed: " ++ e)
  | .ok _ =>
    if conn == "mongodb" then .error "MongoDB support not yet implemented for Update operation"
    else if model.id == 0 then (Create conn ty db model).map (·.1)
    else .ok (updState db model.id model.payload)

/-- `Accessor.Delete`: shape validation, backend dispatch, then GORM's
soft delete — an UPDATE setting `deleted_at` on the live rows with the
model's primary key; a blank key is rejected by GORM's missing-WHERE
guard. -/
def Delete (conn : String) (ty : Option RType) (db : Db) (model : Model) :
    Except String Db :=
  match ValidateBaseModel ty with
  | .error e => .error ("model validation failed: " ++ e)
  | .ok _ =>
    if conn == "mongodb" then .error "MongoDB support not yet implemented for Delete operation"
    else if model.id == 0 then .error "WHERE conditions required"
    else .ok { db with rows := db.rows.map (fun r =>
          if r.rid == model.id && !r.deleted then { r with deleted := true } else r) }

/-- What `All`/`Filter` see of their `models` argument: whether the
interface is nil, whether it is a pointer to a slice, and the reflected
element type. -/
structure SliceTarget where
  isNil : Bool
  isPtrToSlice : Bool
  elemTy : Option RType
deriving DecidableEq, Repr

/-- Column lookup for dynamic conditions on the model's table. -/
def rowField (r : Row) (field : String) : Option String :=
  if field == "name" then some r.payload
  else if field == "id" then some (toString r.rid)
  else none

/-- `Accessor.All`: nil guard, slice-shape guard, element-type shape
validation, backend dispatch, then `Find` over live rows. -/
def All (conn : String) (db : Db) (t : SliceTarget) : Except String (List Row) :=
  if t.isNil then .error "models cannot be nil"
  else if !t.isPtrToSlice then .error "models must be a pointer to a slice"
  else
    match ValidateBaseModel t.elemTy with
    | .error e => .error ("model validation failed: " ++ e)
    | .ok _ =>
      if conn == "mongodb" then .error "MongoDB support not yet implemented for All operation"
      else .ok (liveRows db)

/-- `Accessor.Filter`: nil guard; an empty condition map delegates to
`All`; otherwise slice-shape guard, backend dispatch, and a `Where` chain
of exact matches combined with AND over live rows. -/
def Filter (conn : String) (db : Db) (t : SliceTarget)
    (conditions : List (String × String)) : Except String (List Row) :=
  if t.isNil then .error "models cannot be nil"
  else if conditions.isEmpty then All conn db t
  else if !t.isPtrToSlice then .error "models must be a pointer to a slice"
  else if conn == "mongodb" then .error "MongoDB support not yet implemented for Filter operation"
  else .ok ((liveRows db).filter (fun r => conditions.all (fun c => rowField r c.1 == some c.2)))

/-- `Accessor.Transaction`: backend dispatch, then the backend's
transaction contract — the callback runs against the transaction scope
and its state is kept exactly when the callback succeeds; any propagated
error rolls every write back. Returns the error outcome and the storage
state after commit/rollback. -/
def Transaction (conn : String) (db : Db) (fn : Db → Except String Db) :
    Except String Unit × Db :=
  if conn == "mongodb" then
    (.error "MongoDB support not yet implemented for Transaction operation", db)
  else
    match fn db with
    | .ok db1 => (.ok (), db1)
    | .error e => (.error e, db)

/-! ## Migration target selection -/

/-- Reflected identity of a registered model prototype (pointer already
dereferenced): its package path and type name. -/
structure MType where
  pkgPath : String
  tname : String
deriving DecidableEq, Repr

/-- `isDefaultUserModel`: the prototype is the built-in `gobase.User`. -/
def isDefaultUserModel (t : MType) : Bool := t.pkgPath == "gobase" && t.tname == "User"

/-- `Accessor.Migrate`: backend dispatch; a non-empty explicit list is
used verbatim, otherwise the registry minus every default `User` entry;
an empty target set is a configuration error; otherwise `AutoMigrate`
runs on the targets (returned here as the migrated set). -/
def Migrate (conn : String) (registry : List MType) (models : List MType) :
    Except String (List MType) :=
  if conn == "mongodb" then .error "MongoDB support not yet implemented for Migrate operation"
  else
    let modelsToMigrate :=
      if models.length > 0 then models
      else registry.filter (fun m => !isDefaultUserModel m)
    if modelsToMigrate.length == 0 then .error "no models to migrate"
    else .ok modelsToMigrate

/-! ## Preload engine -/

/-- A decoded JSON object destined for the model's table: the optional
`"id"` key and the data attribute. -/
structure Obj where
  oid : Option Nat
  payload : String
deriving DecidableEq, Repr

/-- Which branch `preloadObject` took. -/
inductive PAction where
  | created
  | updated
deriving DecidableEq, Repr

/-- `recordExists`: when the object carries an `"id"`, resolve it by
`Get` on a fresh instance; found means exists and the resolved id is
copied onto the decoded model (`copyID`); `record not found` means not
existing; any other `Get` error propagates. Without an `"id"`, the
record is assumed new. -/
def recordExists (conn : String) (ty : Option RType) (db : Db) (model : Model) (o : Obj) :
    Except String (Bool × Model) :=
  match o.oid with
  | some i =>
    match Get conn ty db {} (some i) with
    | (.ok _, temp) => .ok (true, { model with id := temp.id })
    | (.error e, _) =>
      if e == "record not found" then .ok (false, model)
      else .error e
  | none => .ok (false, model)

/-- `preloadObject`: decode the object onto a fresh instance, resolve
existence, then `Update` in place or `Create`. The taken branch is
returned alongside the new state. -/
def preloadObject (conn : String) (ty : Option RType) (db : Db) (o : Obj) :
    Except String (Db × PAction) :=
  let newModel : Model := { id := o.oid.getD 0, payload := o.payload }
  match recordExists conn ty db newModel o with
  | .error e => .error ("failed to check if record exists: " ++ e)
  | .ok (true, m) =>
    match Update conn ty db m with
    | .error e => .error e
    | .ok db1 => .ok (db1, .updated)
  | .ok (false, m) =>
    match Create conn ty db m with
    | .error e => .error e
    | .ok (db1, _) => .ok (db1, .created)

/-- The per-object loop of `preloadFromFile`, each failure wrapped with
the file's object context. -/
def preloadObjects (conn : String) (ty : Option RType) (db : Db) :
    List Obj → Except String (Db × List PAction)
  | [] => .ok (db, [])
  | o :: rest =>
    match preloadObject conn ty db o with
    | .error e => .error ("failed to preload object: " ++ e)
    | .ok (db1, a) =>
      match preloadObjects conn ty db1 rest with
      | .error e => .error e
      | .ok (db2, acts) => .ok (db2, a :: acts)

/-- `preloadFromFile`: resolve the file's base name against the caller's
model registry, then reconcile the decoded objects in order. -/
def preloadFromFile (conn : String) (modelRegistry : List (String × Option RType))
    (modelName : String) (db : Db) (objs : List Obj) : Except String (Db × List PAction) :=
  match modelRegistry.find? (fun p => p.1 == modelName) with
  | none => .error ("no model registered for " ++ modelName)
  | some entry => preloadObjects conn entry.2 db objs

/-- Payload carried by the last object in the list bearing the given id,
if any (the value a full pass of updates leaves at that id). -/
def lastPayload : List Obj → Nat → Option String
  | [], _ => none
  | o :: rest, i =>
    match lastPayload rest i with
    | some p => some p
    | none => if o.oid == some i then some o.payload else none

/-- The effect of one full update pass of the file on a single row: a
live row whose id occurs in the file takes the last such payload. -/
def overwriteRow (objs : List Obj) (r : Row) : Row :=
  if r.deleted then r
  else
    match lastPayload objs r.rid with
    | some p => ⟨r.rid, p, r.deleted⟩
    | none => r

/-- Whether a live row with the given id exists. -/
def liveRid (db : Db) (i : Nat) : Bool := db.rows.any (fun r => r.rid == i && !r.deleted)

/-- Every live row at the id carries the given payload. -/
def PayloadAt (db : Db) (i : Nat) (q : String) : Prop :=
  ∀ r ∈ db.rows, r.rid = i → r.deleted = false → r.payload = q

/-- A transaction callback that creates two records through the
transaction-scoped accessor and then returns an error (the scenario of
the atomicity property). -/
def txCreateTwoThenFail (conn : String) (ty : Option RType) (r1 r2 : Model) (db : Db) :
    Except String Db :=
  match Create conn ty db r1 with
  | .error e => .error e
  | .ok (d1, _) =>
    match Create conn ty d1 r2 with
    | .error e => .error e
    | .ok _ => .error "intentional failure"

end Gobase

namespace Gobase

/-! ## Theorems -/

/-- C6 (counterexample): a struct that defines all four base attributes
directly, without embedding the shared base, is rejected by shape
validation — the claim says it passes. -/
theorem directFields_struct_rejected :
    ValidateBaseModel directFieldsTy = .error "model must embed gobase.BaseModel" ∧
    ValidateBaseModel directFieldsTy ≠ .ok () := by decide

/-- C6 (amended): shape validation succeeds exactly when the instance is
non-nil and, after one pointer dereference, is a struct containing an
anonymous (embedded) field whose type is named `BaseModel`. Nil values,
non-structs, and structs without such an embedded field — including ones
defining the four base attributes directly — fail. -/
theorem validateBaseModel_ok_iff (m : Option RType) :
    ValidateBaseModel m = .ok () ↔
      ∃ t, m = some t ∧ ∃ n fs, derefOnce t = .structTy n fs ∧
        ∃ f ∈ fs, f.anonymous = true ∧ f.typeName = "BaseModel" := by
  constructor
  · intro h
    match m with
    | none => simp [ValidateBaseModel] at h
    | some t =>
      refine ⟨t, rfl, ?_⟩
      simp only [ValidateBaseModel] at h
      cases hd : derefOnce t with
      | ptr e => rw [hd] at h; simp at h
      | basic n => rw [hd] at h; simp at h
      | structTy n fs =>
        rw [hd] at h
        refine ⟨n, fs, rfl, ?_⟩
        by_cases hany : fs.any (fun f => f.anonymous && f.typeName == "BaseModel") = true
        · obtain ⟨f, hf, hp⟩ := List.any_eq_true.mp hany
          simp only [Bool.and_eq_true, beq_iff_eq] at hp
          exact ⟨f, hf, hp.1, hp.2⟩
        · simp [hany] at h
  · rintro ⟨t, rfl, n, fs, hd, f, hf, ha, hn⟩
    have hany : fs.any (fun f => f.anonymous && f.typeName == "BaseModel") = true :=
      List.any_eq_true.mpr ⟨f, hf, by simp [ha, hn]⟩
    simp only [ValidateBaseModel, hd]
    rw [if_pos hany]

/-- C7: migration target selection — a non-empty explicit list is used
verbatim; with no arguments the registry is used with every default
`User` entry excluded; an empty resulting target set fails with the
configuration error instead of migrating nothing. -/
theorem migrate_target_selection (conn : String) (registry models : List MType)
    (hconn : conn ≠ "mongodb") :
    (models ≠ [] → Migrate conn registry models = .ok models) ∧
    (registry.filter (fun m => !isDefaultUserModel m) ≠ [] →
      Migrate conn registry [] = .ok (registry.filter (fun m => !isDefaultUserModel m)) ∧
      ∀ t ∈ registry.filter (fun m => !isDefaultUserModel m), isDefaultUserModel t = false) ∧
    (registry.filter (fun m => !isDefaultUserModel m) = [] →
      Migrate conn registry [] = .error "no models to migrate") := by
  have hc : (conn == "mongodb") = false := by simpa using hconn
  refine ⟨?_, ?_, ?_⟩
  · intro hm
    have hlen : 0 < models.length := List.length_pos.mpr hm
    simp [Migrate, hc, hlen, Nat.pos_iff_ne_zero.mp hlen]
  · intro hne
    have hlen : 0 < (registry.filter (fun m => !isDefaultUserModel m)).length :=
      List.length_pos.mpr hne
    constructor
    · simp [Migrate, hc, Nat.pos_iff_ne_zero.mp hlen]
    · intro t ht
      have := (List.mem_filter.mp ht).2
      simpa using this
  · intro hempty
    simp [Migrate, hc, hempty]

/-- C7 (witness): concrete instances of the three selection modes. -/
theorem migrate_target_selection_witness :
    Migrate "sqlite" [⟨"gobase", "User"⟩] [⟨"main", "TestModel"⟩] = .ok [⟨"main", "TestModel"⟩] ∧
    Migrate "sqlite" [⟨"gobase", "User"⟩, ⟨"main", "TestModel"⟩] [] = .ok [⟨"main", "TestModel"⟩] ∧
    Migrate "sqlite" [⟨"gobase", "User"⟩] [] = .error "no models to migrate" := by
  refine ⟨?_, ?_, ?_⟩
  · exact (migrate_target_selection "sqlite" [⟨"gobase", "User"⟩] [⟨"main", "TestModel"⟩]
      (by decide)).1 (by decide)
  · exact ((migrate_target_selection "sqlite" [⟨"gobase", "User"⟩, ⟨"main", "TestModel"⟩] []
      (by decide)).2.1 (by decide)).1
  · exact (migrate_target_selection "sqlite" [⟨"gobase", "User"⟩] [] (by decide)).2.2 (by decide)

/-- C8: `Filter` with an empty condition map behaves exactly like `All`
for every target: same records, same error outcome. -/
theorem filter_empty_conditions_eq_all (conn : String) (db : Db) (t : SliceTarget) :
    Filter conn db t [] = All conn db t := by
  cases h : t.isNil <;> simp [Filter, All, h]

/-- C10: for every shape-valid record, `Get` with a nil identity returns
the nil-id error before any storage access (the outcome is independent
of the storage contents) and leaves the passed record unchanged. -/
theorem get_nil_id_rejected (conn : String) (ty : Option RType) (m : Model) (db : Db)
    (hty : ValidateBaseModel ty = .ok ()) :
    Get conn ty db m none = (.error "id cannot be nil", m) ∧
    ∀ db2 : Db, Get conn ty db2 m none = Get conn ty db m none := by
  constructor
  · simp [Get, hty]
  · intro db2
    simp [Get, hty]

/-- C10 (witness): the nil-id error at a concrete store and record. -/
theorem get_nil_id_rejected_witness :
    ValidateBaseModel testModelTy = .ok () ∧
    Get "sqlite" testModelTy ⟨[⟨1, "A", false⟩], 2⟩ ⟨0, ""⟩ none =
      (.error "id cannot be nil", ⟨0, ""⟩) :=
  ⟨by decide,
   (get_nil_id_rejected "sqlite" testModelTy ⟨0, ""⟩ ⟨[⟨1, "A", false⟩], 2⟩ (by decide)).1⟩

/-- C5: validation rules run in a fixed order and only the first failing
rule's message is returned: for every username and email that pass their
blocks, password "short1" fails with the length message and
"alllowercase1" fails with the uppercase message, both from
`validateSuperuserInputs` and, wrapped, from `CreateSuperuser`. -/
theorem validation_order_first_failure (u e : String)
    (hu : validateUsername u = .ok ()) (he : validateEmail e = .ok ()) :
    validateSuperuserInputs u e "short1" =
      .error "password must be at least 8 characters long" ∧
    validateSuperuserInputs u e "alllowercase1" =
      .error "password must contain at least one uppercase letter" ∧
    ∀ (conn : String) (db : UserDb),
      CreateSuperuser conn db u e "short1" =
        .error "validation failed: password must be at least 8 characters long" := by
  have h1 : validatePassword "short1" =
      .error "password must be at least 8 characters long" := by decide
  have h2 : validatePassword "alllowercase1" =
      .error "password must contain at least one uppercase letter" := by decide
  refine ⟨?_, ?_, ?_⟩
  · simp [validateSuperuserInputs, hu, he, h1]
  · simp [validateSuperuserInputs, hu, he, h2]
  · intro conn db
    simp [CreateSuperuser, validateSuperuserInputs, hu, he, h1]

/-- C5 (witness): the two rejections at a concrete passing username and
email. -/
theorem validation_order_first_failure_witness :
    validateUsername "admin" = .ok () ∧ validateEmail "a@x.com" = .ok () ∧
    validateSuperuserInputs "admin" "a@x.com" "short1" =
      .error "password must be at least 8 characters long" ∧
    CreateSuperuser "sqlite" ⟨[], 1⟩ "admin" "a@x.com" "short1" =
      .error "validation failed: password must be at least 8 characters long" :=
  ⟨by decide, by decide,
   (validation_order_first_failure "admin" "a@x.com" (by decide) (by decide)).1,
   (validation_order_first_failure "admin" "a@x.com" (by decide) (by decide)).2.2 "sqlite" ⟨[], 1⟩⟩

/-- C9: every user accepted by the `BeforeCreate` hook satisfies the
role invariant — the stored role lies in the closed set (defaulting to
"user" when unset), superuser implies both flags, admin implies the
staff flag — and acceptance is only possible when the incoming role was
unset or in the closed set (any other role fails creation). -/
theorem beforeCreate_role_invariant (u v : UserM) (h : BeforeCreate u = .ok v) :
    (v.role = "user" ∨ v.role = "admin" ∨ v.role = "superuser") ∧
    (u.role = "" → v.role = "user") ∧
    (v.role = "superuser" → v.isSuperuser = true ∧ v.isStaff = true) ∧
    (v.role = "admin" → v.isStaff = true) ∧
    (u.role = "" ∨ u.role = "user" ∨ u.role = "admin" ∨ u.role = "superuser") := by
  rw [BeforeCreate] at h
  split at h
  · simp at h
  split at h
  · simp at h
  split at h
  · simp at h
  split at h
  · simp at h
  split at h
  · simp at h
  by_cases h0 : u.role = ""
  · simp [h0] at h
    obtain rfl := h.symm
    simp [h0]
  · by_cases h1 : u.role = "user"
    · simp [h0, h1] at h
      obtain rfl := h.symm
      simp [h1, h0]
    · by_cases h2 : u.role = "admin"
      · simp [h0, h1, h2] at h
        obtain rfl := h.symm
        simp [h2, h1, h0]
      · by_cases h3 : u.role = "superuser"
        · simp [h0, h1, h2, h3] at h
          obtain rfl := h.symm
          simp [h3, h2, h1, h0]
        · simp [h0, h1, h2, h3] at h

/-- C9 (witness): a concrete superuser-role record through the hook. -/
theorem beforeCreate_role_invariant_witness :
    BeforeCreate
        { username := "admin", email := "a@x.com", passwordHash := "h",
          isActive := true, role := "superuser" } =
      .ok { username := "admin", email := "a@x.com", passwordHash := "h",
            isActive := true, isStaff := true, isSuperuser := true, role := "superuser" } ∧
    ({ username := "admin", email := "a@x.com", passwordHash := "h", isActive := true,
       isStaff := true, isSuperuser := true, role := "superuser" } : UserM).isSuperuser = true :=
  ⟨by decide,
   ((beforeCreate_role_invariant
      { username := "admin", email := "a@x.com", passwordHash := "h",
        isActive := true, role := "superuser" }
      { username := "admin", email := "a@x.com", passwordHash := "h",
        isActive := true, isStaff := true, isSuperuser := true, role := "superuser" }
      (by decide)).2.2.1 rfl).1⟩

/-- Inversion of a successful `Create`: the table gained exactly the new
row at the model's assigned id, and no pre-existing row carried that id. -/
theorem Create_ok_shape {conn : String} {ty : Option RType} {db d : Db} {m m1 : Model}
    (h : Create conn ty db m = .ok (d, m1)) :
    d.rows = db.rows ++ [⟨m1.id, m.payload, false⟩] ∧
    (db.rows.any fun r => r.rid == m1.id) = false := by
  unfold Create at h
  split at h
  · simp at h
  split at h
  · simp at h
  split at h
  all_goals
    dsimp only at h
    split at h
    · simp at h
    · rename_i hany
      simp only [Except.ok.injEq, Prod.mk.injEq] at h
      obtain ⟨hd, hm⟩ := h
      subst hd
      rw [← hm]
      exact ⟨by simp, by simpa using hany⟩

/-- When no live row carries the identity, `Get` by that identity fails
with GORM's not-found error. -/
theorem Get_fst_not_found {conn : String} {ty : Option RType} {db : Db} {i : Nat}
    (hty : ValidateBaseModel ty = .ok ()) (hc : (conn == "mongodb") = false)
    (hnone : ∀ r ∈ db.rows, (r.rid == i && !r.deleted) = false) (m0 : Model) :
    (Get conn ty db m0 (some i)).1 = .error "record not found" := by
  have hfind : db.rows.find? (fun r => r.rid == i && !r.deleted) = none :=
    List.find?_eq_none.mpr (by intro x hx; simpa using hnone x hx)
  simp [Get, hty, hc, hfind]

/-- C3: `Delete` on a previously created record is a soft delete only —
afterwards `Get` by the record's identity fails with the not-found
error, the table keeps exactly as many rows as before with a row under
that identity still physically present, and the tombstone-inclusive
count still counts it. -/
theorem delete_is_soft (conn : String) (ty : Option RType) (db : Db) (m : Model) (r : Row)
    (hconn : conn ≠ "mongodb") (hty : ValidateBaseModel ty = .ok ())
    (hid : m.id ≠ 0) (hr : r ∈ db.rows) (hrid : r.rid = m.id) (hlive : r.deleted = false) :
    ∃ db1, Delete conn ty db m = .ok db1 ∧
      (∀ m0 : Model, (Get conn ty db1 m0 (some m.id)).1 = .error "record not found") ∧
      db1.rows.length = db.rows.length ∧
      (∃ r1 ∈ db1.rows, r1.rid = m.id) ∧
      unscopedCountById db1 m.id = unscopedCountById db m.id ∧
      0 < unscopedCountById db1 m.id := by
  have hc : (conn == "mongodb") = false := by simpa using hconn
  have hz : (m.id == 0) = false := by simpa using hid
  refine ⟨{ db with rows := db.rows.map (fun r =>
      if r.rid == m.id && !r.deleted then { r with deleted := true } else r) },
    by simp [Delete, hty, hc, hz], ?_, ?_, ?_, ?_, ?_⟩
  · intro m0
    apply Get_fst_not_found hty hc
    intro x hx
    obtain ⟨y, hy, rfl⟩ := List.mem_map.mp hx
    by_cases hcond : (y.rid == m.id && !y.deleted) = true
    · simp [hcond]
    · simp only [if_neg hcond]
      simpa using hcond
  · simp
  · refine ⟨if r.rid == m.id && !r.deleted then { r with deleted := true } else r, ?_, ?_⟩
    · exact List.mem_map_of_mem _ hr
    · simp [hrid, hlive]
  · show (db.rows.map _).countP _ = db.rows.countP _
    rw [List.countP_map]
    apply List.countP_congr
    intro y hy
    by_cases hcond : (y.rid == m.id && !y.deleted) = true <;>
      simp [Function.comp, hcond]
  · show 0 < (db.rows.map _).countP _
    rw [List.countP_map]
    apply List.countP_pos_iff.mpr
    exact ⟨r, hr, by simp [hrid, hlive]⟩

/-- C3 (witness): soft-deleting a concrete record. -/
theorem delete_is_soft_witness :
    ∃ db1, Delete "sqlite" testModelTy ⟨[⟨1, "A", false⟩], 2⟩ ⟨1, "A"⟩ = .ok db1 ∧
      (∀ m0 : Model, (Get "sqlite" testModelTy db1 m0 (some 1)).1 = .error "record not found") ∧
      db1.rows.length = 1 ∧
      (∃ r1 ∈ db1.rows, r1.rid = 1) ∧
      unscopedCountById db1 1 = unscopedCountById ⟨[⟨1, "A", false⟩], 2⟩ 1 ∧
      0 < unscopedCountById db1 1 := by
  have h := delete_is_soft "sqlite" testModelTy ⟨[⟨1, "A", false⟩], 2⟩ ⟨1, "A"⟩ ⟨1, "A", false⟩
    (by decide) (by decide) (by decide) (by decide) rfl rfl
  simpa using h

/-- C4: a transaction whose callback creates two records through the
transaction-scoped accessor and then returns an error is rolled back
with the error propagated: storage afterwards equals the original state,
which contains neither of the created identities. -/
theorem transaction_rolls_back (conn : String) (ty : Option RType) (db d1 d2 : Db)
    (r1 r2 m1 m2 : Model) (hconn : conn ≠ "mongodb")
    (h1 : Create conn ty db r1 = .ok (d1, m1))
    (h2 : Create conn ty d1 r2 = .ok (d2, m2)) :
    Transaction conn db (txCreateTwoThenFail conn ty r1 r2) =
      (.error "intentional failure", db) ∧
    db.rows.any (fun r => r.rid == m1.id) = false ∧
    db.rows.any (fun r => r.rid == m2.id) = false := by
  have hc : (conn == "mongodb") = false := by simpa using hconn
  obtain ⟨hd1, hany1⟩ := Create_ok_shape h1
  obtain ⟨hd2, hany2⟩ := Create_ok_shape h2
  refine ⟨?_, hany1, ?_⟩
  · have hfn : txCreateTwoThenFail conn ty r1 r2 db = .error "intentional failure" := by
      simp only [txCreateTwoThenFail, h1, h2]
    simp [Transaction, hc, hfn]
  · cases hb : db.rows.any (fun r => r.rid == m2.id) with
    | false => rfl
    | true =>
      rw [hd1, List.any_append, hb] at hany2
      simp at hany2

/-- C4 (witness): a concrete rolled-back transaction. -/
theorem transaction_rolls_back_witness :
    Transaction "sqlite" ⟨[], 1⟩ (txCreateTwoThenFail "sqlite" testModelTy ⟨0, "a"⟩ ⟨0, "b"⟩) =
      (.error "intentional failure", ⟨[], 1⟩) ∧
    ((⟨[], 1⟩ : Db).rows.any fun r => r.rid == 1) = false ∧
    ((⟨[], 1⟩ : Db).rows.any fun r => r.rid == 2) = false := by
  have h := transaction_rolls_back "sqlite" testModelTy ⟨[], 1⟩ ⟨[⟨1, "a", false⟩], 2⟩
    ⟨[⟨1, "a", false⟩, ⟨2, "b", false⟩], 3⟩ ⟨0, "a"⟩ ⟨0, "b"⟩ ⟨1, "a"⟩ ⟨2, "b"⟩
    (by decide) (by decide) (by decide)
  simpa using h

/-- A username accepted by the username regex is non-empty. -/
theorem usernameRegex_ne_empty {u : String} (h : usernameRegexMatch u = true) :
    (u == "") = false := by
  rw [beq_eq_false_iff_ne]
  intro he
  subst he
  exact absurd h (by decide)

/-- An email accepted by the email regex is non-empty. -/
theorem emailRegex_ne_empty {e : String} (h : emailRegexMatch e = true) :
    (e == "") = false := by
  rw [beq_eq_false_iff_ne]
  intro he
  subst he
  exact absurd h (by decide)

/-- The hashing collaborator never returns the empty string. -/
theorem bcryptHash_ne_empty (p : String) : (bcryptHash p == "") = false := by
  rw [beq_eq_false_iff_ne]
  intro heq
  have hlen := congrArg String.length heq
  rw [bcryptHash, String.length_append] at hlen
  have h7 : ("$2a$10$" : String).length = 7 := by decide
  have h0 : ("" : String).length = 0 := by decide
  omega

/-- Passing the full superuser input validation implies the user-model
format checks and the minimum password length. -/
theorem validate_ok_user_checks {u e p : String}
    (h : validateSuperuserInputs u e p = .ok ()) :
    IsValidUsername u = true ∧ IsValidEmail e = true ∧ ¬(p.utf8ByteSize < 8) := by
  unfold validateSuperuserInputs at h
  split at h
  · simp at h
  · rename_i valu hu
    split at h
    · simp at h
    · rename_i vale he
      refine ⟨?_, ?_, ?_⟩
      · unfold validateUsername at hu
        split at hu
        · simp at hu
        split at hu
        · simp at hu
        split at hu
        · simp at hu
        · rename_i hlen hregex
          rw [IsValidUsername, if_neg hlen]
          simpa using hregex
      · unfold validateEmail at he
        split at he
        · simp at he
        split at he
        · simp at he
        · rename_i hblank hregex
          rw [IsValidEmail]
          simpa using hregex
      · intro hlen
        rw [validatePassword, if_pos hlen] at h
        simp at h

/-- C2 (counterexample): after `CreateSuperuser` provisions "admin", a
second call with the same username and a different unused email does
fail, but with the storage layer's unique-index violation raised during
`Create` — not with the pre-persist already-exists error of the `Get`
username lookup, which queries the id column and finds nothing. -/
theorem superuser_duplicate_username_cex :
    CreateSuperuser "sqlite" ⟨[], 1⟩ "admin" "a@x.com" "Secret123" =
      .ok ⟨[⟨1, "admin", "a@x.com", bcryptHash "Secret123", "superuser",
            true, true, true, false⟩], 2⟩ ∧
    CreateSuperuser "sqlite"
        ⟨[⟨1, "admin", "a@x.com", bcryptHash "Secret123", "superuser",
           true, true, true, false⟩], 2⟩ "admin" "b@x.com" "Secret123" =
      .error "failed to create superuser: UNIQUE constraint failed: users.username" ∧
    CreateSuperuser "sqlite"
        ⟨[⟨1, "admin", "a@x.com", bcryptHash "Secret123", "superuser",
           true, true, true, false⟩], 2⟩ "admin" "b@x.com" "Secret123" ≠
      .error "user with username 'admin' already exists" := by
  refine ⟨by decide, by decide, by decide⟩

/-- C2 (amended): if an active record with the requested username exists
while the id-column lookup `Get(existingUser, username)` matches nothing
(always the case for non-numeric usernames), the email is unused, and
the next id is fresh, then the second `CreateSuperuser` call fails with
the storage layer's username unique-index violation at `Create` time
rather than with the pre-persist lookup error. -/
theorem superuser_duplicate_username_rejected_at_create
    (conn : String) (db : UserDb) (u e p : String)
    (hconn : conn ≠ "mongodb")
    (hval : validateSuperuserInputs u e p = .ok ())
    (hdup : ∃ r ∈ db.rows, r.username = u)
    (hidmiss : ∀ r ∈ db.rows, ¬(decimalValue u = some r.rid ∧ r.deleted = false))
    (hemail : ∀ r ∈ db.rows, r.email ≠ e)
    (hfresh : ∀ r ∈ db.rows, r.rid ≠ db.nextId) :
    CreateSuperuser conn db u e p =
      .error "failed to create superuser: UNIQUE constraint failed: users.username" := by
  have hc : (conn == "mongodb") = false := by simpa using hconn
  have hvm : ValidateBaseModel userModelTy = .ok () := by decide
  obtain ⟨hvu, hve, hvp⟩ := validate_ok_user_checks hval
  have hregexu : usernameRegexMatch u = true := by
    rw [IsValidUsername] at hvu
    split at hvu
    · simp at hvu
    · exact hvu
  have hgfind : db.rows.find? (fun r => decimalValue u == some r.rid && !r.deleted) = none := by
    apply List.find?_eq_none.mpr
    intro x hx
    have hmiss := hidmiss x hx
    simp only [Bool.and_eq_true, beq_iff_eq, Bool.not_eq_true', not_and]
    intro h1 h2
    exact hmiss ⟨h1, h2⟩
  have hget : GetUserByStringId conn db u = .error "record not found" := by
    simp [GetUserByStringId, hvm, hc, hgfind]
  have hfe : FilterUsersByEmail conn db e = .ok [] := by
    simp only [FilterUsersByEmail, hc, Bool.false_eq_true, if_false, Except.ok.injEq]
    apply List.filter_eq_nil_iff.mpr
    intro x hx
    simp [hemail x hx]
  have hne_u : (u == "") = false := usernameRegex_ne_empty hregexu
  have hne_e : (e == "") = false := by
    rw [IsValidEmail] at hve
    exact emailRegex_ne_empty hve
  have hbc : BeforeCreate
      { username := u, email := e, passwordHash := bcryptHash p, role := "superuser",
        isActive := true, isStaff := true, isSuperuser := true } =
      .ok { username := u, email := e, passwordHash := bcryptHash p, role := "superuser",
            isActive := true, isStaff := true, isSuperuser := true } := by
    rw [BeforeCreate]
    simp [hne_u, hne_e, bcryptHash_ne_empty, hvu, hve]
  have hanyname : (db.rows.any fun r => r.username == u) = true := by
    obtain ⟨r, hr, hrn⟩ := hdup
    exact List.any_eq_true.mpr ⟨r, hr, by simp [hrn]⟩
  have hanyid : (db.rows.any fun r => r.rid == db.nextId) = false := by
    rw [Bool.eq_false_iff]
    intro hco
    obtain ⟨r, hr, hrr⟩ := List.any_eq_true.mp hco
    exact hfresh r hr (by simpa using hrr)
  have hcreate : CreateUser conn db
      { username := u, email := e, passwordHash := bcryptHash p, role := "superuser",
        isActive := true, isStaff := true, isSuperuser := true } =
      .error "UNIQUE constraint failed: users.username" := by
    simp [CreateUser, hvm, hc, hbc, hanyid, hanyname]
  have hsp : SetPassword
      { username := u, email := e, role := "superuser",
        isActive := true, isStaff := true, isSuperuser := true } p =
      .ok { username := u, email := e, passwordHash := bcryptHash p, role := "superuser",
            isActive := true, isStaff := true, isSuperuser := true } := by
    rw [SetPassword, if_neg hvp]
  simp only [CreateSuperuser, hval, hget, hfe]
  simp only [List.length_nil, gt_iff_lt, Nat.lt_irrefl, if_false, hsp, hcreate]
  decide

/-- C2 (amended, witness): the concrete duplicate-username scenario. -/
theorem superuser_duplicate_username_rejected_at_create_witness :
    CreateSuperuser "sqlite"
        ⟨[⟨1, "admin", "a@x.com", bcryptHash "Secret123", "superuser",
           true, true, true, false⟩], 2⟩ "admin" "b@x.com" "Secret123" =
      .error "failed to create superuser: UNIQUE constraint failed: users.username" :=
  superuser_duplicate_username_rejected_at_create "sqlite"
    ⟨[⟨1, "admin", "a@x.com", bcryptHash "Secret123", "superuser", true, true, true, false⟩], 2⟩
    "admin" "b@x.com" "Secret123" (by decide) (by decide)
    ⟨⟨1, "admin", "a@x.com", bcryptHash "Secret123", "superuser", true, true, true, false⟩,
      by simp, rfl⟩
    (by decide) (by decide) (by decide)

/-! ### Preload idempotence development -/

theorem updRow_rid (i : Nat) (p : String) (r : Row) : (updRow i p r).rid = r.rid := by
  unfold updRow
  split <;> rfl

theorem updRow_deleted (i : Nat) (p : String) (r : Row) :
    (updRow i p r).deleted = r.deleted := by
  unfold updRow
  split <;> rfl

theorem updRow_set_payload (i : Nat) (p q : String) (r : Row) :
    { updRow i p r with payload := q } = { r with payload := q } := by
  unfold updRow
  split <;> rfl

/-- An update pass changes no row's liveness. -/
theorem liveRid_updState (db : Db) (i j : Nat) (p : String) :
    liveRid (updState db i p) j = liveRid db j := by
  unfold liveRid updState
  rw [List.any_map]
  congr 1
  funext r
  simp [Function.comp, updRow_rid, updRow_deleted]

/-- Appending rows preserves liveness. -/
theorem liveRid_append {db db1 : Db} {j : Nat} (rs : List Row)
    (he : db1.rows = db.rows ++ rs) (hl : liveRid db j = true) : liveRid db1 j = true := by
  unfold liveRid at *
  rw [he, List.any_append, hl]
  rfl

/-- A live id yields a found row with that id. -/
theorem find_of_liveRid {db : Db} {i : Nat} (h : liveRid db i = true) :
    ∃ r, db.rows.find? (fun r => r.rid == i && !r.deleted) = some r ∧
      r.rid = i ∧ r.deleted = false := by
  obtain ⟨x, hx, hp⟩ := List.any_eq_true.mp h
  have hsome : (db.rows.find? (fun r => r.rid == i && !r.deleted)).isSome :=
    List.find?_isSome.mpr ⟨x, hx, hp⟩
  obtain ⟨r, hr⟩ := Option.isSome_iff_exists.mp hsome
  have hpr := List.find?_some hr
  simp only [Bool.and_eq_true, beq_iff_eq, Bool.not_eq_true'] at hpr
  exact ⟨r, hr, hpr.1, hpr.2⟩

/-- The id `Create` assigns: the next id for a blank key, the model's
own key otherwise. -/
theorem Create_ok_id {conn : String} {ty : Option RType} {db d : Db} {m m1 : Model}
    (h : Create conn ty db m = .ok (d, m1)) :
    m1.id = if m.id == 0 then db.nextId else m.id := by
  unfold Create at h
  split at h
  · simp at h
  split at h
  · simp at h
  split at h
  all_goals
    dsimp only at h
    split at h
    · simp at h
    · simp only [Except.ok.injEq, Prod.mk.injEq] at h
      obtain ⟨hd, hm⟩ := h
      rw [← hm]
      simp_all

/-- A successful `Create` leaves its new row live. -/
theorem Create_ok_live {conn : String} {ty : Option RType} {db d : Db} {m m1 : Model}
    (h : Create conn ty db m = .ok (d, m1)) : liveRid d m1.id = true := by
  obtain ⟨hrows, -⟩ := Create_ok_shape h
  unfold liveRid
  rw [hrows, List.any_append]
  simp

/-- On a live id, `preloadObject` resolves the object by `Get`, copies
the resolved identity, and issues an in-place `Update`. -/
theorem preloadObject_update {conn : String} {ty : Option RType} {db : Db} {o : Obj} {i : Nat}
    (hvt : ValidateBaseModel ty = .ok ()) (hc : (conn == "mongodb") = false)
    (hoid : o.oid = some i) (hi : i ≠ 0) (hlive : liveRid db i = true) :
    preloadObject conn ty db o = .ok (updState db i o.payload, .updated) := by
  obtain ⟨r, hfind, hrid, hrdel⟩ := find_of_liveRid hlive
  have hz : (r.rid == 0) = false := by
    rw [hrid]
    simpa using hi
  have hget : Get conn ty db {} (some i) = (.ok (), { id := r.rid, payload := r.payload }) := by
    simp [Get, hvt, hc, hfind]
  have hupd : Update conn ty db { id := r.rid, payload := o.payload } =
      .ok (updState db i o.payload) := by
    simp only [Update, hvt, hc, Bool.false_eq_true, if_false, hz]
    rw [hrid]
  unfold preloadObject recordExists
  rw [hoid]
  simp only [hget, hupd, hoid, Option.getD_some]

/-- Inversion of one successful `preloadObject` step over objects with
non-blank ids: either the id was live and an in-place `Update` ran, or
the decoded model was freshly `Create`d. -/
theorem preloadObject_ok_shape {conn : String} {ty : Option RType} {db db1 : Db}
    {o : Obj} {a : PAction}
    (hvt : ValidateBaseModel ty = .ok ()) (hc : (conn == "mongodb") = false)
    (hnz : ∀ i, o.oid = some i → i ≠ 0)
    (h : preloadObject conn ty db o = .ok (db1, a)) :
    (∃ i, o.oid = some i ∧ liveRid db i = true ∧
      db1 = updState db i o.payload ∧ a = .updated) ∨
    (∃ m1, Create conn ty db { id := o.oid.getD 0, payload := o.payload } = .ok (db1, m1) ∧
      a = .created) := by
  unfold preloadObject recordExists at h
  cases hoid : o.oid with
  | none =>
    rw [hoid] at h
    dsimp only at h
    simp only [Option.getD_none] at h
    try simp only [Option.getD_none]
    cases hC : Create conn ty db { id := 0, payload := o.payload } with
    | error e => rw [hC] at h; simp at h
    | ok pr =>
      obtain ⟨d2, m1⟩ := pr
      rw [hC] at h
      simp only [Except.ok.injEq, Prod.mk.injEq] at h
      obtain ⟨h1, h2⟩ := h
      right
      refine ⟨m1, ?_, h2.symm⟩
      rw [← h1]
  | some i =>
    rw [hoid] at h
    simp only [Option.getD_some] at h
    have hi : i ≠ 0 := hnz i hoid
    try simp only [Option.getD_some]
    cases hfind : db.rows.find? (fun r => r.rid == i && !r.deleted) with
    | some r =>
      have hget : Get conn ty db {} (some i) =
          (.ok (), { id := r.rid, payload := r.payload }) := by
        simp [Get, hvt, hc, hfind]
      have hpr := List.find?_some hfind
      simp only [Bool.and_eq_true, beq_iff_eq, Bool.not_eq_true'] at hpr
      have hlv : liveRid db i = true := by
        unfold liveRid
        exact List.any_eq_true.mpr ⟨r, List.mem_of_find?_eq_some hfind, by simp [hpr.1, hpr.2]⟩
      have hz : (r.rid == 0) = false := by
        rw [hpr.1]
        simpa using hi
      have hupd : Update conn ty db { id := r.rid, payload := o.payload } =
          .ok (updState db i o.payload) := by
        simp only [Update, hvt, hc, Bool.false_eq_true, if_false, hz]
        rw [hpr.1]
      simp only [hget, hupd, Except.ok.injEq, Prod.mk.injEq] at h
      obtain ⟨h1, h2⟩ := h
      exact Or.inl ⟨i, rfl, hlv, h1.symm, h2.symm⟩
    | none =>
      have hget : Get conn ty db {} (some i) = (.error "record not found", {}) := by
        simp [Get, hvt, hc, hfind]
      simp only [hget, beq_self_eq_true, if_true, reduceIte] at h
      cases hC : Create conn ty db { id := i, payload := o.payload } with
      | error e => rw [hC] at h; simp at h
      | ok pr =>
        obtain ⟨d2, m1⟩ := pr
        rw [hC] at h
        simp only [Except.ok.injEq, Prod.mk.injEq] at h
        obtain ⟨h1, h2⟩ := h
        right
        refine ⟨m1, ?_, h2.symm⟩
        rw [← h1]

/-- One step preserves liveness of every id. -/
theorem preloadObject_preserves_live {conn : String} {ty : Option RType} {db db1 : Db}
    {o : Obj} {a : PAction} {j : Nat}
    (hvt : ValidateBaseModel ty = .ok ()) (hc : (conn == "mongodb") = false)
    (hnz : ∀ i, o.oid = some i → i ≠ 0)
    (h : preloadObject conn ty db o = .ok (db1, a)) (hl : liveRid db j = true) :
    liveRid db1 j = true := by
  rcases preloadObject_ok_shape hvt hc hnz h with ⟨i, -, -, rfl, -⟩ | ⟨m1, hC, -⟩
  · rw [liveRid_updState]
    exact hl
  · obtain ⟨hrows, -⟩ := Create_ok_shape hC
    exact liveRid_append _ hrows hl

/-- One step leaves its own id live. -/
theorem preloadObject_establishes_live {conn : String} {ty : Option RType} {db db1 : Db}
    {o : Obj} {a : PAction} {i : Nat}
    (hvt : ValidateBaseModel ty = .ok ()) (hc : (conn == "mongodb") = false)
    (hoid : o.oid = some i) (hi : i ≠ 0)
    (h : preloadObject conn ty db o = .ok (db1, a)) : liveRid db1 i = true := by
  have hnz : ∀ j, o.oid = some j → j ≠ 0 := by
    intro j hj
    rw [hoid] at hj
    cases hj
    exact hi
  rcases preloadObject_ok_shape hvt hc hnz h with ⟨i2, hoid2, hlv, rfl, -⟩ | ⟨m1, hC, -⟩
  · rw [hoid] at hoid2
    cases hoid2
    rw [liveRid_updState]
    exact hlv
  · have hlive := Create_ok_live hC
    have hmid := Create_ok_id hC
    rw [hoid, Option.getD_some] at hmid
    simp only [show (i == 0) = false by simpa using hi, Bool.false_eq_true, if_false] at hmid
    rw [hmid] at hlive
    exact hlive

/-- A step on a different id neither changes nor tombstones the live
rows at `i`. -/
theorem preloadObject_frame {conn : String} {ty : Option RType} {db db1 : Db}
    {o : Obj} {a : PAction} {i j : Nat} {q : String}
    (hvt : ValidateBaseModel ty = .ok ()) (hc : (conn == "mongodb") = false)
    (hoid : o.oid = some j) (hj0 : j ≠ 0) (hji : j ≠ i)
    (h : preloadObject conn ty db o = .ok (db1, a)) (hP : PayloadAt db i q) :
    PayloadAt db1 i q := by
  have hnz : ∀ k, o.oid = some k → k ≠ 0 := by
    intro k hk
    rw [hoid] at hk
    cases hk
    exact hj0
  rcases preloadObject_ok_shape hvt hc hnz h with ⟨j2, hoid2, -, rfl, -⟩ | ⟨m1, hC, -⟩
  · rw [hoid] at hoid2
    cases hoid2
    intro r1 hr1 hrid hdel
    obtain ⟨y, hy, rfl⟩ := List.mem_map.mp hr1
    have hyrid : y.rid = i := by rw [← updRow_rid j o.payload y]; exact hrid
    have hcond : (y.rid == j && !y.deleted) = false := by
      rw [hyrid]
      simp [Ne.symm hji]
    have hfix : updRow j o.payload y = y := by
      unfold updRow
      rw [hcond]
      rfl
    rw [hfix] at hrid hdel ⊢
    exact hP y hy hrid hdel
  · obtain ⟨hrows, -⟩ := Create_ok_shape hC
    have hmid := Create_ok_id hC
    rw [hoid, Option.getD_some] at hmid
    simp only [show (j == 0) = false by simpa using hj0, Bool.false_eq_true, if_false] at hmid
    intro r1 hr1 hrid hdel
    rw [hrows] at hr1
    rcases List.mem_append.mp hr1 with hold | hnew
    · exact hP r1 hold hrid hdel
    · simp only [List.mem_singleton] at hnew
      rw [hnew] at hrid
      simp only at hrid
      rw [hmid] at hrid
      exact absurd hrid hji

/-- A step on id `i` leaves every live row at `i` holding the object's
payload. -/
theorem preloadObject_sets_payload {conn : String} {ty : Option RType} {db db1 : Db}
    {o : Obj} {a : PAction} {i : Nat}
    (hvt : ValidateBaseModel ty = .ok ()) (hc : (conn == "mongodb") = false)
    (hoid : o.oid = some i) (hi : i ≠ 0)
    (h : preloadObject conn ty db o = .ok (db1, a)) : PayloadAt db1 i o.payload := by
  have hnz : ∀ k, o.oid = some k → k ≠ 0 := by
    intro k hk
    rw [hoid] at hk
    cases hk
    exact hi
  rcases preloadObject_ok_shape hvt hc hnz h with ⟨i2, hoid2, -, rfl, -⟩ | ⟨m1, hC, -⟩
  · rw [hoid] at hoid2
    cases hoid2
    intro r1 hr1 hrid hdel
    obtain ⟨y, hy, rfl⟩ := List.mem_map.mp hr1
    have hyrid : y.rid = i := by rw [← updRow_rid i o.payload y]; exact hrid
    have hydel : y.deleted = false := by rw [← updRow_deleted i o.payload y]; exact hdel
    have hcond : (y.rid == i && !y.deleted) = true := by simp [hyrid, hydel]
    unfold updRow
    rw [hcond]
    simp
  · obtain ⟨hrows, hany⟩ := Create_ok_shape hC
    have hmid := Create_ok_id hC
    rw [hoid, Option.getD_some] at hmid
    simp only [show (i == 0) = false by simpa using hi, Bool.false_eq_true, if_false] at hmid
    intro r1 hr1 hrid hdel
    rw [hrows] at hr1
    rcases List.mem_append.mp hr1 with hold | hnew
    · exfalso
      have : (r1.rid == m1.id) = false := by
        cases hb : (r1.rid == m1.id)
        · rfl
        · rw [← hany]
          exact (List.any_eq_true.mpr ⟨r1, hold, hb⟩).symm
      rw [hrid, hmid] at this
      simp at this
    · simp only [List.mem_singleton] at hnew
      rw [hnew]

/-- Inversion of a successful run over a non-empty object list. -/
theorem preloadObjects_cons_ok {conn : String} {ty : Option RType} {db s1 : Db}
    {o : Obj} {rest : List Obj} {acts : List PAction}
    (h : preloadObjects conn ty db (o :: rest) = .ok (s1, acts)) :
    ∃ db1 a acts2, preloadObject conn ty db o = .ok (db1, a) ∧
      preloadObjects conn ty db1 rest = .ok (s1, acts2) ∧ acts = a :: acts2 := by
  rw [preloadObjects] at h
  cases hstep : preloadObject conn ty db o with
  | error e => rw [hstep] at h; simp at h
  | ok pr =>
    obtain ⟨db1, a⟩ := pr
    rw [hstep] at h
    dsimp only at h
    cases hrest : preloadObjects conn ty db1 rest with
    | error e => rw [hrest] at h; simp at h
    | ok pr2 =>
      obtain ⟨db2, acts2⟩ := pr2
      rw [hrest] at h
      simp only [Except.ok.injEq, Prod.mk.injEq] at h
      obtain ⟨h1, h2⟩ := h
      subst h1
      exact ⟨db1, a, acts2, rfl, hrest, h2.symm⟩

/-- A successful run preserves liveness of every id. -/
theorem preloadObjects_preserves_live {conn : String} {ty : Option RType}
    (hvt : ValidateBaseModel ty = .ok ()) (hc : (conn == "mongodb") = false) :
    ∀ (objs : List Obj) (db s1 : Db) (acts : List PAction) (j : Nat),
      (∀ o ∈ objs, ∀ i, o.oid = some i → i ≠ 0) →
      preloadObjects conn ty db objs = .ok (s1, acts) →
      liveRid db j = true → liveRid s1 j = true := by
  intro objs
  induction objs with
  | nil =>
    intro db s1 acts j hnz h hl
    rw [preloadObjects] at h
    simp only [Except.ok.injEq, Prod.mk.injEq] at h
    rw [← h.1]
    exact hl
  | cons o rest ih =>
    intro db s1 acts j hnz h hl
    obtain ⟨db1, a, acts2, hstep, hrest, -⟩ := preloadObjects_cons_ok h
    have hl1 := preloadObject_preserves_live hvt hc (hnz o (by simp)) hstep hl
    exact ih db1 s1 acts2 j (fun o2 ho2 => hnz o2 (by simp [ho2])) hrest hl1

/-- After a successful run, every id carried by the file is live. -/
theorem preloadObjects_establishes_live {conn : String} {ty : Option RType}
    (hvt : ValidateBaseModel ty = .ok ()) (hc : (conn == "mongodb") = false) :
    ∀ (objs : List Obj) (db s1 : Db) (acts : List PAction),
      (∀ o ∈ objs, ∀ i, o.oid = some i → i ≠ 0) →
      preloadObjects conn ty db objs = .ok (s1, acts) →
      ∀ o ∈ objs, ∀ i, o.oid = some i → liveRid s1 i = true := by
  intro objs
  induction objs with
  | nil =>
    intro db s1 acts hnz h o ho
    simp at ho
  | cons o rest ih =>
    intro db s1 acts hnz h o2 ho2 i hoid
    obtain ⟨db1, a, acts2, hstep, hrest, -⟩ := preloadObjects_cons_ok h
    rcases List.mem_cons.mp ho2 with rfl | htail
    · have hi : i ≠ 0 := hnz o2 (by simp) i hoid
      have hl1 := preloadObject_establishes_live hvt hc hoid hi hstep
      exact preloadObjects_preserves_live hvt hc rest db1 s1 acts2 i
        (fun o3 ho3 => hnz o3 (by simp [ho3])) hrest hl1
    · exact ih db1 s1 acts2 (fun o3 ho3 => hnz o3 (by simp [ho3])) hrest o2 htail i hoid

/-- When the last payload at `i` is absent, no object carries id `i`. -/
theorem lastPayload_none_imp {objs : List Obj} {i : Nat}
    (h : lastPayload objs i = none) : ∀ o ∈ objs, o.oid ≠ some i := by
  induction objs with
  | nil => simp
  | cons o rest ih =>
    rw [lastPayload] at h
    cases hl : lastPayload rest i with
    | some p => rw [hl] at h; simp at h
    | none =>
      rw [hl] at h
      intro o2 ho2
      rcases List.mem_cons.mp ho2 with rfl | htail
      · intro hoid
        rw [show (o2.oid == some i) = true by simp [hoid]] at h
        simp at h
      · exact ih hl o2 htail

/-- A run whose objects all carry nonzero ids different from `i` keeps
the payload of the live rows at `i`. -/
theorem preloadObjects_frame {conn : String} {ty : Option RType}
    (hvt : ValidateBaseModel ty = .ok ()) (hc : (conn == "mongodb") = false) :
    ∀ (objs : List Obj) (db s1 : Db) (acts : List PAction) (i : Nat) (q : String),
      (∀ o ∈ objs, ∃ j, o.oid = some j ∧ j ≠ 0 ∧ j ≠ i) →
      preloadObjects conn ty db objs = .ok (s1, acts) →
      PayloadAt db i q → PayloadAt s1 i q := by
  intro objs
  induction objs with
  | nil =>
    intro db s1 acts i q hnz h hP
    rw [preloadObjects] at h
    simp only [Except.ok.injEq, Prod.mk.injEq] at h
    rw [← h.1]
    exact hP
  | cons o rest ih =>
    intro db s1 acts i q hnz h hP
    obtain ⟨db1, a, acts2, hstep, hrest, -⟩ := preloadObjects_cons_ok h
    obtain ⟨j, hoid, hj0, hji⟩ := hnz o (by simp)
    have hP1 := preloadObject_frame hvt hc hoid hj0 hji hstep hP
    exact ih db1 s1 acts2 i q (fun o2 ho2 => hnz o2 (by simp [ho2])) hrest hP1

/-- After a successful run over objects with nonzero ids, every live row
whose id occurs in the file holds the payload of its last occurrence. -/
theorem preloadObjects_lastPayload {conn : String} {ty : Option RType}
    (hvt : ValidateBaseModel ty = .ok ()) (hc : (conn == "mongodb") = false) :
    ∀ (objs : List Obj) (db s1 : Db) (acts : List PAction),
      (∀ o ∈ objs, ∃ j, o.oid = some j ∧ j ≠ 0) →
      preloadObjects conn ty db objs = .ok (s1, acts) →
      ∀ i p, lastPayload objs i = some p → PayloadAt s1 i p := by
  intro objs
  induction objs with
  | nil =>
    intro db s1 acts hnz h i p hlp
    simp [lastPayload] at hlp
  | cons o rest ih =>
    intro db s1 acts hnz h i p hlp
    obtain ⟨db1, a, acts2, hstep, hrest, -⟩ := preloadObjects_cons_ok h
    rw [lastPayload] at hlp
    cases hl : lastPayload rest i with
    | some q =>
      rw [hl] at hlp
      simp only [Option.some.injEq] at hlp
      rw [← hlp]
      exact ih db1 s1 acts2 (fun o2 ho2 => hnz o2 (by simp [ho2])) hrest i q hl
    | none =>
      rw [hl] at hlp
      have hbeq : (o.oid == some i) = true := by
        by_cases hb : (o.oid == some i) = true
        · exact hb
        · rw [if_neg hb] at hlp
          simp at hlp
      rw [if_pos hbeq] at hlp
      simp only [Option.some.injEq] at hlp
      have hoid : o.oid = some i := by simpa using hbeq
      obtain ⟨j, hj, hj0⟩ := hnz o (by simp)
      rw [hoid] at hj
      have hj2 : j = i := by
        injection hj with hji
        exact hji.symm
      have hi0 : i ≠ 0 := hj2 ▸ hj0
      have hP1 : PayloadAt db1 i o.payload :=
        preloadObject_sets_payload hvt hc hoid hi0 hstep
      rw [← hlp]
      apply preloadObjects_frame hvt hc rest db1 s1 acts2 i o.payload ?_ hrest hP1
      intro o2 ho2
      obtain ⟨k, hk, hk0⟩ := hnz o2 (by simp [ho2])
      refine ⟨k, hk, hk0, ?_⟩
      intro hki
      rw [hki] at hk
      exact lastPayload_none_imp hl o2 ho2 hk

/-- Rerunning the whole file over live ids is exactly one pure update
pass, acting as `Update` on each object in order. -/
theorem preloadObjects_all_updates {conn : String} {ty : Option RType}
    (hvt : ValidateBaseModel ty = .ok ()) (hc : (conn == "mongodb") = false) :
    ∀ (objs : List Obj) (db : Db),
      (∀ o ∈ objs, ∃ i, o.oid = some i ∧ i ≠ 0 ∧ liveRid db i = true) →
      preloadObjects conn ty db objs =
        .ok (objs.foldl (fun d o => updState d (o.oid.getD 0) o.payload) db,
             objs.map fun _ => PAction.updated) := by
  intro objs
  induction objs with
  | nil =>
    intro db h
    simp [preloadObjects]
  | cons o rest ih =>
    intro db h
    obtain ⟨i, hoid, hi, hlive⟩ := h o (by simp)
    rw [preloadObjects, preloadObject_update hvt hc hoid hi hlive]
    dsimp only
    rw [ih (updState db i o.payload) ?_]
    · simp [hoid]
    · intro o2 ho2
      obtain ⟨j, hj, hjne, hjlive⟩ := h o2 (by simp [ho2])
      refine ⟨j, hj, hjne, ?_⟩
      rw [liveRid_updState]
      exact hjlive

/-- A full update pass commutes into a single overwrite of each row. -/
theorem overwrite_upd_pointwise {o : Obj} {i : Nat} (hoid : o.oid = some i)
    (rest : List Obj) (r : Row) :
    overwriteRow rest (updRow i o.payload r) = overwriteRow (o :: rest) r := by
  obtain ⟨rid0, p0, d0⟩ := r
  cases d0 with
  | true =>
    have h1 : updRow i o.payload ⟨rid0, p0, true⟩ = ⟨rid0, p0, true⟩ := by
      unfold updRow
      simp
    rw [h1]
    unfold overwriteRow
    simp
  | false =>
    by_cases hri : rid0 = i
    · subst hri
      have h1 : updRow rid0 o.payload ⟨rid0, p0, false⟩ = ⟨rid0, o.payload, false⟩ := by
        unfold updRow
        simp
      rw [h1]
      unfold overwriteRow
      simp only [Bool.false_eq_true, if_false]
      cases hl : lastPayload rest rid0 with
      | some q =>
        have hl2 : lastPayload (o :: rest) rid0 = some q := by
          rw [lastPayload, hl]
        rw [hl2]
      | none =>
        have hl2 : lastPayload (o :: rest) rid0 = some o.payload := by
          rw [lastPayload, hl, if_pos (by simp [hoid])]
        rw [hl2]
    · have h1 : updRow i o.payload ⟨rid0, p0, false⟩ = ⟨rid0, p0, false⟩ := by
        unfold updRow
        simp [hri]
      rw [h1]
      unfold overwriteRow
      simp only [Bool.false_eq_true, if_false]
      cases hl : lastPayload rest rid0 with
      | some q =>
        have hl2 : lastPayload (o :: rest) rid0 = some q := by
          rw [lastPayload, hl]
        rw [hl2]
      | none =>
        have hl2 : lastPayload (o :: rest) rid0 = none := by
          rw [lastPayload, hl, if_neg (by simp [hoid, Ne.symm hri])]
        rw [hl2]

/-- The pure update-pass fold equals a pointwise overwrite of the rows;
the next id is untouched. -/
theorem foldl_upd_eq_overwrite :
    ∀ (objs : List Obj) (db : Db), (∀ o ∈ objs, o.oid.isSome) →
      objs.foldl (fun d o => updState d (o.oid.getD 0) o.payload) db =
        { rows := db.rows.map (overwriteRow objs), nextId := db.nextId } := by
  intro objs
  induction objs with
  | nil =>
    intro db h
    have hid : ∀ r, overwriteRow [] r = r := by
      intro r
      unfold overwriteRow lastPayload
      split <;> rfl
    have hmap : db.rows.map (overwriteRow []) = db.rows := by
      have h2 : db.rows.map (overwriteRow []) = db.rows.map id :=
        List.map_congr_left (fun r _ => hid r)
      rw [h2, List.map_id]
    simp only [List.foldl_nil]
    rw [hmap]
  | cons o rest ih =>
    intro db h
    obtain ⟨i, hoid⟩ := Option.isSome_iff_exists.mp (h o (by simp))
    rw [List.foldl_cons, ih _ (fun o2 ho2 => h o2 (by simp [ho2]))]
    simp only [updState, hoid, Option.getD_some]
    congr 1
    rw [List.map_map]
    exact List.map_congr_left (fun r _ => overwrite_upd_pointwise hoid rest r)

/-- C1 (counterexample): an object that carries the `"id"` key with the
value 0 decodes to a blank primary key, so each run `Create`s a fresh row
— a second preload of the unchanged file adds a row instead of updating
in place, refuting idempotence for arbitrary identity-bearing files. -/
theorem preload_id_zero_not_idempotent_cex :
    preloadFromFile "sqlite" [("test_models", testModelTy)] "test_models" ⟨[], 1⟩
        [⟨some 0, "A"⟩] = .ok (⟨[⟨1, "A", false⟩], 2⟩, [.created]) ∧
    preloadFromFile "sqlite" [("test_models", testModelTy)] "test_models"
        ⟨[⟨1, "A", false⟩], 2⟩ [⟨some 0, "A"⟩] =
      .ok (⟨[⟨1, "A", false⟩, ⟨2, "A", false⟩], 3⟩, [.created]) ∧
    liveCount ⟨[⟨1, "A", false⟩, ⟨2, "A", false⟩], 3⟩ = 2 ∧
    liveCount ⟨[⟨1, "A", false⟩], 2⟩ = 1 := by decide

/-- C1 (amended): for every model registry and every file whose objects
all carry a nonzero `"id"`, rerunning `Preload` against the unchanged
file returns exactly the state the first run produced — same live rows,
same count — and every object of the second run is resolved by `Get` on
its id, has the resolved identity copied onto the freshly decoded
instance, and goes through `Update` instead of `Create`. -/
theorem preload_rerun_idempotent (conn : String)
    (reg : List (String × Option RType)) (modelName : String)
    (entry : String × Option RType) (db s1 : Db) (objs : List Obj) (acts1 : List PAction)
    (hconn : conn ≠ "mongodb")
    (hreg : reg.find? (fun pr => pr.1 == modelName) = some entry)
    (hvt : ValidateBaseModel entry.2 = .ok ())
    (hids : ∀ o ∈ objs, ∃ i, o.oid = some i ∧ i ≠ 0)
    (hrun1 : preloadFromFile conn reg modelName db objs = .ok (s1, acts1)) :
    preloadFromFile conn reg modelName s1 objs =
      .ok (s1, objs.map fun _ => PAction.updated) := by
  have hc : (conn == "mongodb") = false := by simpa using hconn
  unfold preloadFromFile at hrun1 ⊢
  rw [hreg] at hrun1 ⊢
  dsimp only at hrun1 ⊢
  have hnz : ∀ o ∈ objs, ∀ i, o.oid = some i → i ≠ 0 := by
    intro o ho i hoid
    obtain ⟨j, hj, hj0⟩ := hids o ho
    rw [hoid] at hj
    injection hj with hji
    rw [hji]
    exact hj0
  have hlives : ∀ o ∈ objs, ∃ i, o.oid = some i ∧ i ≠ 0 ∧ liveRid s1 i = true := by
    intro o ho
    obtain ⟨i, hoid, hi⟩ := hids o ho
    exact ⟨i, hoid, hi,
      preloadObjects_establishes_live hvt hc objs db s1 acts1 hnz hrun1 o ho i hoid⟩
  rw [preloadObjects_all_updates hvt hc objs s1 hlives]
  rw [foldl_upd_eq_overwrite objs s1 (fun o ho => by
    obtain ⟨i, hoid, -⟩ := hids o ho
    simp [hoid])]
  have hmap : s1.rows.map (overwriteRow objs) = s1.rows := by
    have h2 : s1.rows.map (overwriteRow objs) = s1.rows.map id := by
      apply List.map_congr_left
      intro r hr
      show overwriteRow objs r = r
      unfold overwriteRow
      cases hd : r.deleted with
      | true => simp
      | false =>
        simp only [Bool.false_eq_true, if_false]
        cases hl : lastPayload objs r.rid with
        | none => rfl
        | some p =>
          have hP := preloadObjects_lastPayload hvt hc objs db s1 acts1
            (fun o ho => hids o ho) hrun1 r.rid p hl
          have hpay : r.payload = p := hP r hr rfl hd
          rw [← hpay, ← hd]
    rw [h2, List.map_id]
  rw [hmap]

/-- C1 (amended, witness): a two-object file with ids 1 and 2, preloaded
into an empty store and then preloaded again. -/
theorem preload_rerun_idempotent_witness :
    preloadFromFile "sqlite" [("test_models", testModelTy)] "test_models"
        ⟨[⟨1, "A", false⟩, ⟨2, "B", false⟩], 3⟩ [⟨some 1, "A"⟩, ⟨some 2, "B"⟩] =
      .ok (⟨[⟨1, "A", false⟩, ⟨2, "B", false⟩], 3⟩, [.updated, .updated]) := by
  have h := preload_rerun_idempotent "sqlite" [("test_models", testModelTy)] "test_models"
    ("test_models", testModelTy) ⟨[], 1⟩ ⟨[⟨1, "A", false⟩, ⟨2, "B", false⟩], 3⟩
    [⟨some 1, "A"⟩, ⟨some 2, "B"⟩] [.created, .created]
    (by decide) (by decide) (by decide) (by decide) (by decide)
  simpa using h

end Gobase
